import Mathlib

/-!
Verification development for the Chronicle VS Code extension
(src/src/extension.ts, the AI-enabled variant of the source).

The engine is shallowly embedded: JavaScript strings become Lean String
values, and the few JavaScript string methods the source uses (trim,
split, toLowerCase, startsWith, includes, slice, basename) are modelled
as executable functions on the underlying character list.  Git
subprocesses, the confirmation input box, configuration reads and the
network call are modelled by an explicit environment record; each
orchestration cycle returns the ordered list of git commands it issued,
the user-visible messages it produced and the resulting session
counters.
-/

/-- Character class used by the model of the JavaScript trim method:
space, tab, newline and carriage return (the whitespace shapes that
occur in git output). -/
def wsChar (c : Char) : Bool :=
  c = ' ' || c = '\t' || c = '\n' || c = '\r'

/-- Model of the JavaScript trim method: drop whitespace characters from
both ends of the string. -/
def trimStr (s : String) : String :=
  ⟨((s.data.dropWhile wsChar).reverse.dropWhile wsChar).reverse⟩

/-- Model of the JavaScript toLowerCase method (ASCII, which covers the
conventional-commit type labels the source compares against). -/
def lowerStr (s : String) : String :=
  ⟨s.data.map Char.toLower⟩

/-- Model of the JavaScript startsWith method. -/
def startsWithStr (s p : String) : Bool :=
  p.data.isPrefixOf s.data

/-- Model of the JavaScript endsWith method. -/
def endsWithStr (s p : String) : Bool :=
  p.data.isSuffixOf s.data

/-- Model of the JavaScript includes method: the pattern occurs as a
contiguous substring. -/
def containsStr (s p : String) : Bool :=
  decide (p.data <:+: s.data)

/-- Model of the JavaScript slice applied as slice of the first n
characters. -/
def takeStr (s : String) (n : Nat) : String :=
  ⟨s.data.take n⟩

/-- Splitting a character list at every occurrence of a separator
character, JavaScript split semantics: splitting the empty string gives
one empty piece, and a trailing separator gives a trailing empty
piece. -/
def splitSepAux (sep : Char) : List Char → List Char → List (List Char)
  | [], acc => [acc.reverse]
  | c :: rest, acc =>
    if c = sep then acc.reverse :: splitSepAux sep rest []
    else splitSepAux sep rest (c :: acc)

/-- Model of the JavaScript split method on a one-character separator. -/
def splitSep (sep : Char) (s : String) : List String :=
  (splitSepAux sep s.data []).map String.mk

/-- Model of the idiom text.split at newline, index zero: the first
line of the text. -/
def firstLine (s : String) : String :=
  ⟨s.data.takeWhile (fun c => c ≠ '\n')⟩

/-- Model of Node path.basename for the slash-separated paths git
prints: the last slash-separated component. -/
def basename (p : String) : String :=
  (splitSep '/' p).getLastD p

/-- Model of the idiom stdout.trim().split newline .filter(f => f):
the non-empty lines of a git listing. -/
def parseFileList (stdout : String) : List String :=
  (splitSep '\n' (trimStr stdout)).filter (fun f => f ≠ "")

/-- Model of message.replace of every double quote by a backslash-quote
pair, as done before interpolating the message into the commit command
line. -/
def escapeQuotes (s : String) : String :=
  ⟨s.data.foldr (fun c acc => if c = '"' then '\\' :: '"' :: acc else c :: acc) []⟩

/-- The conventional-commit type labels listed in callGroqAPI
(extension.ts line 327). -/
def groqTypes : List String :=
  ["feat", "fix", "docs", "style", "refactor", "test", "chore"]

/-- The type check callGroqAPI applies to the first response line
(extension.ts line 328): some label t such that the lowercased text
starts with t followed by a colon, or the text contains t followed by
an opening parenthesis anywhere (this second test is case-sensitive and
not anchored at the start). -/
def hasGroqTypeMarker (text : String) : Bool :=
  groqTypes.any (fun t =>
    startsWithStr (lowerStr text) (t ++ ":") || containsStr text (t ++ "("))

/-- Post-processing callGroqAPI applies to the message content of a
successful (status 200, parseable) response, extension.ts lines
322-332: trim, keep the first line, normalize empty text to a default,
prepend a chore label when no type marker is found, and hard-truncate
to 72 characters with a three-dot ellipsis. -/
def postProcessGroq (content : String) : String :=
  let text := firstLine (trimStr content)
  if text = "" then "chore: update"
  else
    let text := if hasGroqTypeMarker text then text else "chore: " ++ text
    if text.length > 72 then takeStr text 69 ++ "..." else text

/-- Predicate written from the specification claim wording, for
comparison with the source behaviour: the message begins with a
recognized conventional-commit type as a leading type-colon or
type-parenthesis, matched case-insensitively. -/
def specLeadingTypeTag (s : String) : Bool :=
  groqTypes.any (fun t =>
    startsWithStr (lowerStr s) (t ++ ":") || startsWithStr (lowerStr s) (t ++ "("))

/-- The deterministic fallback rules of generateCommitMessage over the
staged file list, extension.ts lines 385-387. -/
def fallbackOnFiles (files : List String) : String :=
  if files.length = 0 then "chore: update"
  else if files.length = 1 then "chore: update " ++ basename (files.headD "")
  else "chore: update " ++ toString files.length ++ " files"

/-- The fallback branch of generateCommitMessage, extension.ts lines
382-390: run the staged-name listing; on subprocess failure the catch
returns the default message, otherwise apply the rules to the parsed
file list.  The argument is the subprocess result, none meaning the
subprocess failed. -/
def fallbackRun (cachedNames : Option String) : String :=
  match cachedNames with
  | none => "chore: update"
  | some out => fallbackOnFiles (parseFileList out)

/-- The git subprocess commands the engine issues (section 6 of the
design: the exact git surface of extension.ts). -/
inductive GitCmd
  | statusPorcelain
  | conflictNames
  | addAll
  | diffCached
  | diffCachedNames
  | commit (msg : String)
  | push
  | diffPrevNames
  deriving DecidableEq, Repr

/-- The command line corresponding to each git subprocess, as written in
the source. -/
def cmdLine : GitCmd → String
  | .statusPorcelain => "git status --porcelain"
  | .conflictNames => "git diff --name-only --diff-filter=U"
  | .addAll => "git add ."
  | .diffCached => "git diff --cached"
  | .diffCachedNames => "git diff --name-only --cached"
  | .commit m => "git commit -m \"" ++ m ++ "\""
  | .push => "git push"
  | .diffPrevNames => "git diff --name-only HEAD~1"

/-- Model of the message field of a Node child-process error, as it
reaches the catch block of autoCommitAndPush. -/
def errMessage (c : GitCmd) : String :=
  "Command failed: " ++ cmdLine c

/-- Text of the error report the catch block of autoCommitAndPush shows
when the subprocess for c fails (extension.ts line 282). -/
def reportErr (c : GitCmd) : String :=
  "Commit failed: " ++ errMessage c

/-- The user-visible notifications autoCommitAndPush produces. -/
inductive UserMsg
  | info (s : String)
  | warn (s : String)
  | error (s : String)
  deriving DecidableEq, Repr

/-- Environment of one orchestration cycle: what each git subprocess
would return (none models a subprocess failure), what the confirmation
input box resolves to (none models cancellation), the two configuration
flags read during the cycle, the stored API key, and the content of the
completion response (none models any network, status or parse
failure). -/
structure GitEnv where
  exec : GitCmd → Option String
  userConfirm : Option String
  autoPush : Bool
  useAI : Bool
  storedKey : Option String
  groqResponse : Option String

/-- The successive answers the user gives to the missing-key setup
prompt of generateAICommitMessage; the yes answer carries what the user
then enters into the key input box (none when they escape it). -/
inductive SetupChoice
  | yes (entry : Option String)
  | no
  | disableAI
  | dismissed

/-- Model of generateAICommitMessage, extension.ts lines 347-373,
returning the git commands it runs and the value it resolves to.  With
a key present it runs the cached-diff listing inside a try block (a
subprocess failure resolves to none), resolves to none on an empty
staged diff, and otherwise resolves to what callGroqAPI resolves to: a
post-processed response content, or none on any request failure.  With
no key it walks the setup prompt answers: a yes answer stores any
entered key and retries, every other answer resolves to none. -/
def generateAI (env : GitEnv) : Option String → List SetupChoice → List GitCmd × Option String
  | some _, _ =>
    match env.exec .diffCached with
    | none => ([.diffCached], none)
    | some diff =>
      if trimStr diff = "" then ([.diffCached], none)
      else ([.diffCached], (env.groqResponse).map postProcessGroq)
  | none, [] => ([], none)
  | none, c :: rest =>
    match c with
    | .yes (some k) => generateAI env (some k) rest
    | .yes none => generateAI env none rest
    | .no => ([], none)
    | .disableAI => ([], none)
    | .dismissed => ([], none)

/-- Model of generateCommitMessage, extension.ts lines 375-391: when AI
messages are enabled, try the AI path first and keep its result when it
is a non-empty string; otherwise run the staged-name listing and apply
the deterministic fallback rules (with the catch returning the default
message on subprocess failure). -/
def generateCommitMessage (env : GitEnv) (choices : List SetupChoice) : List GitCmd × String :=
  if env.useAI then
    let r := generateAI env env.storedKey choices
    match r.2 with
    | some m =>
      if m = "" then (r.1 ++ [.diffCachedNames], fallbackRun (env.exec .diffCachedNames))
      else (r.1, m)
    | none => (r.1 ++ [.diffCachedNames], fallbackRun (env.exec .diffCachedNames))
  else ([.diffCachedNames], fallbackRun (env.exec .diffCachedNames))

/-- Result of one orchestration cycle: the git commands issued in
order, the notifications shown, and the session counters after the
cycle. -/
structure CycleResult where
  cmds : List GitCmd
  msgs : List UserMsg
  commits : Nat
  filesCommitted : Nat
  deriving DecidableEq, Repr

/-- The summary notification of a successful cycle, extension.ts lines
278-280. -/
def summaryMsg (pushed : Bool) (commits files : Nat) : String :=
  "Committed" ++ (if pushed then " & pushed" else "") ++ "! Today: "
    ++ toString commits ++ " commits, " ++ toString files ++ " files"

/-- The statistics step after a successful commit (and push when
enabled), extension.ts lines 273-280: the commit counter is incremented
first; then the diff against the previous commit is listed — if that
subprocess fails (for example when no previous commit exists) the
exception reaches the catch block, which reports a commit failure, and
the file counter is left unchanged; otherwise the file counter grows by
the parsed list length and the summary is shown. -/
def reporting (env : GitEnv) (cmds : List GitCmd) (pushed : Bool) (c0 f0 : Nat) : CycleResult :=
  let c1 := c0 + 1
  match env.exec .diffPrevNames with
  | none => ⟨cmds ++ [.diffPrevNames], [.error (reportErr .diffPrevNames)], c1, f0⟩
  | some out =>
    let fs := parseFileList out
    ⟨cmds ++ [.diffPrevNames], [.info (summaryMsg pushed c1 (f0 + fs.length))], c1, f0 + fs.length⟩

/-- The part of autoCommitAndPush after the stage-all command
succeeded, extension.ts lines 254-280: draft a message, await
confirmation (cancellation ends the cycle with an information
notification and no commit), replace an empty confirmed text by the
literal default, commit with quotes escaped, push when configured, then
run the statistics step; any subprocess failure falls to the catch
block, which reports a commit failure.  The command list is relative to
this point of the cycle. -/
def afterStaging (env : GitEnv) (choices : List SetupChoice) (c0 f0 : Nat) : CycleResult :=
  let d := generateCommitMessage env choices
  match env.userConfirm with
  | none => ⟨d.1, [.info "Commit canceled."], c0, f0⟩
  | some um =>
    let msg := escapeQuotes (if um = "" then "chore: update" else um)
    match env.exec (.commit msg) with
    | none => ⟨d.1 ++ [.commit msg], [.error (reportErr (.commit msg))], c0, f0⟩
    | some _ =>
      if env.autoPush then
        match env.exec .push with
        | none => ⟨d.1 ++ [.commit msg, .push], [.error (reportErr .push)], c0, f0⟩
        | some _ => reporting env (d.1 ++ [.commit msg, .push]) true c0 f0
      else reporting env (d.1 ++ [.commit msg]) false c0 f0

/-- Model of autoCommitAndPush, extension.ts lines 242-284, threading
the session counters: probe the porcelain status (an empty status ends
the cycle silently), probe the unresolved-conflict listing (a non-empty
listing ends the cycle with a warning), stage everything, and continue
with drafting, confirmation, commit, push and statistics; a failing
subprocess at any point falls to the catch block, which reports a
commit failure. -/
def autoCommitAndPush (env : GitEnv) (choices : List SetupChoice) (c0 f0 : Nat) : CycleResult :=
  match env.exec .statusPorcelain with
  | none => ⟨[.statusPorcelain], [.error (reportErr .statusPorcelain)], c0, f0⟩
  | some st =>
    if trimStr st = "" then ⟨[.statusPorcelain], [], c0, f0⟩
    else
      match env.exec .conflictNames with
      | none => ⟨[.statusPorcelain, .conflictNames], [.error (reportErr .conflictNames)], c0, f0⟩
      | some cf =>
        if trimStr cf = "" then
          match env.exec .addAll with
          | none => ⟨[.statusPorcelain, .conflictNames, .addAll], [.error (reportErr .addAll)], c0, f0⟩
          | some _ =>
            let r := afterStaging env choices c0 f0
            ⟨[.statusPorcelain, .conflictNames, .addAll] ++ r.cmds, r.msgs, r.commits, r.filesCommitted⟩
        else
          ⟨[.statusPorcelain, .conflictNames],
           [.warn "Chronicle: Merge conflicts. Skipped."], c0, f0⟩

/-- The module-level trigger state the extension keeps: the pending
save marker (lastSavedFile) and the suppression expiry (pausedUntil). -/
structure TriggerState where
  lastSavedFile : Option String
  pausedUntil : Option Nat
  deriving DecidableEq, Repr

/-- Model of the suppression test (pausedUntil && Date.now() <
pausedUntil) at extension.ts line 229; a zero expiry is falsy in
JavaScript and therefore not suppressing. -/
def suppressedB (pausedUntil : Option Nat) (now : Nat) : Bool :=
  match pausedUntil with
  | none => false
  | some t => (!(t = 0 : Bool)) && decide (now < t)

/-- What handleFileSwitch sees of the editor and workspace: the file
now active, the workspace folder resolved for it (none when the file
belongs to no folder), and whether that folder contains a .git
entry. -/
structure SwitchEnv where
  editorFile : String
  workspaceFolder : Option String
  isGitRepo : Bool

/-- Model of handleFileSwitch, extension.ts lines 228-240: with no
pending save, with the suppression window active, when switching to the
saved file itself, with no workspace folder or with a folder that is
not a git repository, it returns without starting a cycle and without
touching the trigger state; otherwise it runs the orchestration cycle
and then clears the pending save marker. -/
def handleFileSwitch (st : TriggerState) (now : Nat) (sw : SwitchEnv) (env : GitEnv)
    (choices : List SetupChoice) (c0 f0 : Nat) : Option CycleResult × TriggerState :=
  match st.lastSavedFile with
  | none => (none, st)
  | some saved =>
    if suppressedB st.pausedUntil now then (none, st)
    else if sw.editorFile = saved then (none, st)
    else
      match sw.workspaceFolder with
      | none => (none, st)
      | some _ =>
        if sw.isGitRepo then
          (some (autoCommitAndPush env choices c0 f0), { st with lastSavedFile := none })
        else (none, st)

/-- Model of manualCommit, extension.ts lines 393-404: it requires a
workspace folder and a git repository and then runs the orchestration
cycle.  The trigger state and the clock are passed for comparison with
the save-then-switch path, but the source body reads neither the pause
window nor the pending save marker here. -/
def manualCommit (st : TriggerState) (now : Nat) (folder : Option String) (isRepo : Bool)
    (env : GitEnv) (choices : List SetupChoice) (c0 f0 : Nat) : Option CycleResult :=
  match folder with
  | none => none
  | some _ => if isRepo then some (autoCommitAndPush env choices c0 f0) else none

/-- The git commands that modify repository state (index, history or
remote); the others are read-only probes and listings. -/
def mutating : GitCmd → Bool
  | .addAll => true
  | .commit _ => true
  | .push => true
  | _ => false

/-- The read-only commands the message-drafting stage issues: the full
cached diff (AI path) and the cached name listing (fallback path). -/
def isDraftRead : GitCmd → Bool
  | .diffCached => true
  | .diffCachedNames => true
  | _ => false

/-! Helper lemmas about the string model. -/

theorem strLength_append (a b : String) : (a ++ b).length = a.length + b.length := by
  show (a ++ b).data.length = a.data.length + b.data.length
  rw [String.data_append, List.length_append]

theorem length_takeStr_le (s : String) (n : Nat) : (takeStr s n).length ≤ n := by
  show (s.data.take n).length ≤ n
  exact List.length_take_le n s.data

theorem hasGroqTypeMarker_chore (s : String) :
    hasGroqTypeMarker ("chore: " ++ s) = true := by
  apply List.any_eq_true.mpr
  refine ⟨"chore", by decide, ?_⟩
  have h : startsWithStr (lowerStr ("chore: " ++ s)) ("chore" ++ ":") = true := by
    show ("chore" ++ ":").data.isPrefixOf (("chore: " ++ s).data.map Char.toLower) = true
    apply List.isPrefixOf_iff_prefix.mpr
    rw [String.data_append, String.data_append, List.map_append]
    have h1 : (("chore" ++ ":").data : List Char) <+: List.map Char.toLower "chore: ".data :=
      ⟨[' '], by decide⟩
    exact h1.trans (List.prefix_append _ _)
  rw [h, Bool.true_or]

theorem endsWithStr_append (a b : String) : endsWithStr (a ++ b) b = true := by
  show b.data.isSuffixOf (a ++ b).data = true
  rw [String.data_append]
  exact List.isSuffixOf_iff_suffix.mpr (List.suffix_append _ _)

/-- C1 counterexample: a successful response whose first line contains a
type-parenthesis marker in the middle is returned unchanged by the
post-processing (the source tests for the parenthesised form anywhere
in the line, not only at the start), so the resulting message does not
begin with a conventional-commit type tag as the claim states. -/
theorem groq_leading_tag_counterexample :
    postProcessGroq "rework fix(auth) module" = "rework fix(auth) module"
    ∧ specLeadingTypeTag "rework fix(auth) module" = false := by
  constructor
  · decide
  · decide

/-- C1 amended: every post-processed successful response has length at
most 72; empty response text normalizes to a literal default; and the
result either passes the type check the source actually performs (a
case-insensitive leading type-colon, or a case-sensitive
type-parenthesis anywhere in the line) or is a truncation ending in the
three-dot ellipsis marker. -/
theorem truncate_length (text : String) :
    (if text.length > 72 then takeStr text 69 ++ "..." else text).length ≤ 72 := by
  by_cases h : text.length > 72
  · rw [if_pos h, strLength_append]
    have h1 := length_takeStr_le text 69
    have h2 : ("..." : String).length = 3 := by decide
    omega
  · rw [if_neg h]
    omega

theorem postProcessGroq_length (content : String) : (postProcessGroq content).length ≤ 72 := by
  simp only [postProcessGroq]
  by_cases ht : firstLine (trimStr content) = ""
  · rw [if_pos ht]
    decide
  · rw [if_neg ht]
    exact truncate_length _

theorem postProcessGroq_marker (content : String) :
    hasGroqTypeMarker (postProcessGroq content) = true
    ∨ endsWithStr (postProcessGroq content) "..." = true := by
  simp only [postProcessGroq]
  by_cases ht : firstLine (trimStr content) = ""
  · rw [if_pos ht]
    exact Or.inl (by decide)
  · rw [if_neg ht]
    by_cases hm : hasGroqTypeMarker (firstLine (trimStr content)) = true
    · rw [if_pos hm]
      by_cases h72 : (firstLine (trimStr content)).length > 72
      · rw [if_pos h72]
        exact Or.inr (endsWithStr_append _ _)
      · rw [if_neg h72]
        exact Or.inl hm
    · rw [if_neg hm]
      by_cases h72 : ("chore: " ++ firstLine (trimStr content)).length > 72
      · rw [if_pos h72]
        exact Or.inr (endsWithStr_append _ _)
      · rw [if_neg h72]
        exact Or.inl (hasGroqTypeMarker_chore _)

/-- C1 amended: every post-processed successful response has length at
most 72; empty response text normalizes to a literal default; and the
result either passes the type check the source actually performs (a
case-insensitive leading type-colon, or a case-sensitive
type-parenthesis anywhere in the line) or is a truncation ending in the
three-dot ellipsis marker. -/
theorem groq_message_normalized (content : String) :
    (postProcessGroq content).length ≤ 72
    ∧ postProcessGroq "" = "chore: update"
    ∧ (hasGroqTypeMarker (postProcessGroq content) = true
       ∨ endsWithStr (postProcessGroq content) "..." = true) :=
  ⟨postProcessGroq_length content, by decide, postProcessGroq_marker content⟩

/-- C2: the rule-based fallback of the message generator is a total
function of the staged file list, returning by first-match precedence
the default for an empty list, the default plus the basename for a
single file, and the default plus the file count otherwise; and a
failing staged-name subprocess also yields the default. -/
theorem fallback_rules :
    (∀ files : List String,
      fallbackOnFiles files =
        match files with
        | [] => "chore: update"
        | [f] => "chore: update " ++ basename f
        | fs => "chore: update " ++ toString fs.length ++ " files")
    ∧ fallbackRun none = "chore: update" := by
  constructor
  · intro files
    rcases files with _ | ⟨f, _ | ⟨g, rest⟩⟩
    · rfl
    · simp [fallbackOnFiles]
    · simp [fallbackOnFiles]
  · rfl

/-- C3: whenever the porcelain status is non-empty and the
unresolved-conflict listing returns a non-empty text, the cycle stops
right after the two probe commands with the conflict warning, issuing
no further git command and leaving the session counters unchanged. -/
theorem conflicts_abort (env : GitEnv) (choices : List SetupChoice) (c0 f0 : Nat)
    (st cf : String)
    (hst : env.exec .statusPorcelain = some st) (hst2 : trimStr st ≠ "")
    (hcf : env.exec .conflictNames = some cf) (hcf2 : trimStr cf ≠ "") :
    autoCommitAndPush env choices c0 f0 =
      ⟨[.statusPorcelain, .conflictNames],
       [.warn "Chronicle: Merge conflicts. Skipped."], c0, f0⟩
    ∧ GitCmd.addAll ∉ (autoCommitAndPush env choices c0 f0).cmds
    ∧ ∀ m, GitCmd.commit m ∉ (autoCommitAndPush env choices c0 f0).cmds := by
  have heq : autoCommitAndPush env choices c0 f0 =
      ⟨[.statusPorcelain, .conflictNames],
       [.warn "Chronicle: Merge conflicts. Skipped."], c0, f0⟩ := by
    simp only [autoCommitAndPush, hst, hcf]
    rw [if_neg hst2, if_neg hcf2]
  refine ⟨heq, ?_, ?_⟩
  · rw [heq]
    show GitCmd.addAll ∉ [GitCmd.statusPorcelain, GitCmd.conflictNames]
    decide
  · intro m
    rw [heq]
    show GitCmd.commit m ∉ [GitCmd.statusPorcelain, GitCmd.conflictNames]
    simp

/-- Concrete cycle environment with merge conflicts present, used to
instantiate the conflict theorem. -/
def execConflicted : GitCmd → Option String
  | .statusPorcelain => some "UU a.ts\n"
  | .conflictNames => some "a.ts\n"
  | _ => some ""

/-- Environment record for the conflicted repository scenario. -/
def envConflicted : GitEnv :=
  ⟨execConflicted, some "", true, false, none, none⟩

/-- Witness for the conflict theorem at a concrete conflicted
repository. -/
theorem conflicts_abort_witness :
    autoCommitAndPush envConflicted [] 2 3 =
      ⟨[.statusPorcelain, .conflictNames],
       [.warn "Chronicle: Merge conflicts. Skipped."], 2, 3⟩
    ∧ GitCmd.addAll ∉ (autoCommitAndPush envConflicted [] 2 3).cmds
    ∧ ∀ m, GitCmd.commit m ∉ (autoCommitAndPush envConflicted [] 2 3).cmds :=
  conflicts_abort envConflicted [] 2 3 "UU a.ts\n" "a.ts\n"
    rfl (by decide) rfl (by decide)

/-- Concrete cycle environment of a repository receiving its very first
commit: every subprocess succeeds except the diff of names against the
previous commit, which fails because no previous commit exists.  AI
messages are disabled and the user confirms the drafted message
unchanged. -/
def execFirstCommit : GitCmd → Option String
  | .statusPorcelain => some " M a.ts\n"
  | .conflictNames => some ""
  | .addAll => some ""
  | .diffCached => some ""
  | .diffCachedNames => some "a.ts\n"
  | .commit _ => some ""
  | .push => some ""
  | .diffPrevNames => none

/-- Environment record for the first-commit scenario. -/
def envFirstCommit : GitEnv :=
  ⟨execFirstCommit, some "chore: update a.ts", true, false, none, none⟩

/-- C4 failing input evaluated on the model: with no previous commit
the statistics subprocess fails after a fully successful commit and
push, so the catch block reports a commit failure and no summary is
shown — the cycle does not complete its reporting stage as the claim
states.  The commit counter was already incremented before the failing
subprocess, and the file counter is left unchanged. -/
theorem missing_previous_commit_reports_failure :
    autoCommitAndPush envFirstCommit [] 5 7 =
      ⟨[.statusPorcelain, .conflictNames, .addAll, .diffCachedNames,
        .commit "chore: update a.ts", .push, .diffPrevNames],
       [.error "Commit failed: Command failed: git diff --name-only HEAD~1"], 6, 7⟩ := by
  decide

/-! Structural lemmas about the commands a cycle issues. -/

theorem generateAI_some_cmds (env : GitEnv) (k : String) (choices : List SetupChoice) :
    (generateAI env (some k) choices).1 = [.diffCached] := by
  simp only [generateAI]
  cases env.exec .diffCached with
  | none => rfl
  | some diff =>
    by_cases h : trimStr diff = "" <;> simp [h]

theorem generateAI_cmds (env : GitEnv) (choices : List SetupChoice) :
    ∀ (key : Option String) (c : GitCmd),
      c ∈ (generateAI env key choices).1 → c = .diffCached := by
  induction choices with
  | nil =>
    intro key c hc
    cases key with
    | none => simp [generateAI] at hc
    | some k =>
      rw [generateAI_some_cmds] at hc
      simpa using hc
  | cons ch rest ih =>
    intro key c hc
    cases key with
    | some k =>
      rw [generateAI_some_cmds] at hc
      simpa using hc
    | none =>
      cases ch with
      | yes entry =>
        cases entry with
        | some k =>
          have h2 : c ∈ (generateAI env (some k) rest).1 := hc
          rw [generateAI_some_cmds] at h2
          simpa using h2
        | none =>
          have h2 : c ∈ (generateAI env none rest).1 := hc
          exact ih none c h2
      | no => simp [generateAI] at hc
      | disableAI => simp [generateAI] at hc
      | dismissed => simp [generateAI] at hc

theorem generateCommitMessage_cmds (env : GitEnv) (choices : List SetupChoice) :
    ∀ c ∈ (generateCommitMessage env choices).1, isDraftRead c = true := by
  intro c hc
  simp only [generateCommitMessage] at hc
  by_cases hAI : env.useAI = true
  · rw [if_pos hAI] at hc
    cases hr : (generateAI env env.storedKey choices).2 with
    | none =>
      rw [hr] at hc
      simp only [] at hc
      rcases List.mem_append.mp hc with h1 | h1
      · rw [generateAI_cmds env choices env.storedKey c h1]
        rfl
      · simp at h1
        subst h1
        rfl
    | some m =>
      rw [hr] at hc
      simp only [] at hc
      by_cases hm : m = ""
      · rw [if_pos hm] at hc
        rcases List.mem_append.mp hc with h1 | h1
        · rw [generateAI_cmds env choices env.storedKey c h1]
          rfl
        · simp at h1
          subst h1
          rfl
      · rw [if_neg hm] at hc
        rw [generateAI_cmds env choices env.storedKey c hc]
        rfl
  · rw [if_neg hAI] at hc
    simp at hc
    subst hc
    rfl

theorem draftRead_not_mutating (c : GitCmd) (h : isDraftRead c = true) : mutating c = false := by
  cases c <;> first | rfl | exact absurd h (by simp [isDraftRead])

theorem reporting_cmds (env : GitEnv) (l : List GitCmd) (p : Bool) (c0 f0 : Nat) :
    (reporting env l p c0 f0).cmds = l ++ [.diffPrevNames] := by
  simp only [reporting]
  cases env.exec .diffPrevNames <;> rfl

theorem autoCommitAndPush_main (env : GitEnv) (choices : List SetupChoice) (c0 f0 : Nat)
    (st cf a : String)
    (hst : env.exec .statusPorcelain = some st) (hst2 : trimStr st ≠ "")
    (hcf : env.exec .conflictNames = some cf) (hcf2 : trimStr cf = "")
    (ha : env.exec .addAll = some a) :
    autoCommitAndPush env choices c0 f0 =
      ⟨[.statusPorcelain, .conflictNames, .addAll] ++ (afterStaging env choices c0 f0).cmds,
       (afterStaging env choices c0 f0).msgs,
       (afterStaging env choices c0 f0).commits,
       (afterStaging env choices c0 f0).filesCommitted⟩ := by
  simp only [autoCommitAndPush, hst, if_neg hst2, hcf, if_pos hcf2, ha]

theorem afterStaging_canceled (env : GitEnv) (choices : List SetupChoice) (c0 f0 : Nat)
    (hu : env.userConfirm = none) :
    afterStaging env choices c0 f0 =
      ⟨(generateCommitMessage env choices).1, [.info "Commit canceled."], c0, f0⟩ := by
  simp only [afterStaging, hu]

theorem autoCommitAndPush_cmds_shape (env : GitEnv) (choices : List SetupChoice) (c0 f0 : Nat) :
    (∀ c ∈ (autoCommitAndPush env choices c0 f0).cmds, isDraftRead c = false)
    ∨ (autoCommitAndPush env choices c0 f0).cmds =
        [.statusPorcelain, .conflictNames, .addAll] ++ (afterStaging env choices c0 f0).cmds := by
  cases hs : env.exec GitCmd.statusPorcelain with
  | none =>
    left
    simp only [autoCommitAndPush, hs]
    decide
  | some st =>
    by_cases ht : trimStr st = ""
    · left
      simp only [autoCommitAndPush, hs, if_pos ht]
      decide
    · cases hcf : env.exec GitCmd.conflictNames with
      | none =>
        left
        simp only [autoCommitAndPush, hs, if_neg ht, hcf]
        decide
      | some cf =>
        by_cases ht2 : trimStr cf = ""
        · cases ha : env.exec GitCmd.addAll with
          | none =>
            left
            simp only [autoCommitAndPush, hs, if_neg ht, hcf, if_pos ht2, ha]
            decide
          | some a =>
            right
            simp only [autoCommitAndPush, hs, if_neg ht, hcf, if_pos ht2, ha]
        · left
          simp only [autoCommitAndPush, hs, if_neg ht, hcf, if_neg ht2]
          decide

theorem afterStaging_cmds_confirmed (env : GitEnv) (choices : List SetupChoice) (c0 f0 : Nat)
    (um : String) (hu : env.userConfirm = some um) :
    ∃ tail, (afterStaging env choices c0 f0).cmds =
      (generateCommitMessage env choices).1
        ++ [.commit (escapeQuotes (if um = "" then "chore: update" else um))] ++ tail
    ∧ ∀ c ∈ tail, c = GitCmd.push ∨ c = GitCmd.diffPrevNames := by
  simp only [afterStaging, hu]
  cases hc : env.exec (.commit (escapeQuotes (if um = "" then "chore: update" else um))) with
  | none =>
    refine ⟨[], ?_, by simp⟩
    simp
  | some co =>
    by_cases hp : env.autoPush = true
    · rw [if_pos hp]
      cases hps : env.exec GitCmd.push with
      | none =>
        refine ⟨[.push], ?_, by simp⟩
        simp
      | some po =>
        refine ⟨[.push, .diffPrevNames], ?_, by simp⟩
        rw [reporting_cmds]
        simp
    · rw [if_neg hp]
      refine ⟨[.diffPrevNames], ?_, by simp⟩
      rw [reporting_cmds]

/-- C5: whenever an orchestration cycle reads the staged diff to draft
a message (the full cached diff on the AI path or the cached name
listing on the fallback path), the cycle's first three commands are
exactly the status probe, the conflict probe and the stage-all command,
and no drafting read is among them — so staging all pending changes
happens strictly before the message generator reads the staged
state. -/
theorem staging_precedes_drafting (env : GitEnv) (choices : List SetupChoice) (c0 f0 : Nat)
    (h : ∃ c ∈ (autoCommitAndPush env choices c0 f0).cmds, isDraftRead c = true) :
    (autoCommitAndPush env choices c0 f0).cmds.take 3 =
      [.statusPorcelain, .conflictNames, .addAll]
    ∧ ∀ c, isDraftRead c = true →
        c ∉ (autoCommitAndPush env choices c0 f0).cmds.take 3 := by
  rcases autoCommitAndPush_cmds_shape env choices c0 f0 with hall | hmain
  · obtain ⟨c, hc, hdr⟩ := h
    rw [hall c hc] at hdr
    exact absurd hdr (by simp)
  · have htake : (autoCommitAndPush env choices c0 f0).cmds.take 3 =
        [GitCmd.statusPorcelain, GitCmd.conflictNames, GitCmd.addAll] := by
      rw [hmain]
      rw [show (3 : Nat) =
        ([GitCmd.statusPorcelain, GitCmd.conflictNames, GitCmd.addAll] : List GitCmd).length
        from rfl]
      exact List.take_left _ _
    refine ⟨htake, ?_⟩
    intro c hdr hmem
    rw [htake] at hmem
    simp at hmem
    rcases hmem with rfl | rfl | rfl <;> exact absurd hdr (by decide)

/-- Concrete environment for a cycle that runs to full success with AI
messages disabled: one modified file, no conflicts, every subprocess
succeeds, the user accepts the drafted message with an edit. -/
def execHappy : GitCmd → Option String
  | .statusPorcelain => some " M a.ts\n"
  | .conflictNames => some ""
  | .addAll => some ""
  | .diffCached => some ""
  | .diffCachedNames => some "a.ts\n"
  | .commit _ => some ""
  | .push => some ""
  | .diffPrevNames => some "a.ts\n"

/-- Environment record for the fully successful scenario. -/
def envHappy : GitEnv :=
  ⟨execHappy, some "chore: done", true, false, none, none⟩

/-- Witness for the staging-before-drafting theorem on the fully
successful concrete cycle. -/
theorem staging_precedes_drafting_witness :
    (autoCommitAndPush envHappy [] 0 0).cmds.take 3 =
      [.statusPorcelain, .conflictNames, .addAll]
    ∧ ∀ c, isDraftRead c = true →
        c ∉ (autoCommitAndPush envHappy [] 0 0).cmds.take 3 :=
  staging_precedes_drafting envHappy [] 0 0 ⟨.diffCachedNames, by decide, by decide⟩

/-- C8: once the probe and staging stages have passed, confirming the
input box with empty text makes the cycle invoke git commit with the
literal default message (and with no other message), while cancelling
the input box ends the cycle with the cancellation notice, no git
commit at all, and unchanged session counters. -/
theorem confirmation_semantics (env : GitEnv) (choices : List SetupChoice) (c0 f0 : Nat)
    (st cf a : String)
    (hst : env.exec .statusPorcelain = some st) (hst2 : trimStr st ≠ "")
    (hcf : env.exec .conflictNames = some cf) (hcf2 : trimStr cf = "")
    (ha : env.exec .addAll = some a) :
    (env.userConfirm = some "" →
       GitCmd.commit "chore: update" ∈ (autoCommitAndPush env choices c0 f0).cmds
       ∧ ∀ m, GitCmd.commit m ∈ (autoCommitAndPush env choices c0 f0).cmds →
           m = "chore: update")
    ∧ (env.userConfirm = none →
       (∀ m, GitCmd.commit m ∉ (autoCommitAndPush env choices c0 f0).cmds)
       ∧ (autoCommitAndPush env choices c0 f0).msgs = [.info "Commit canceled."]
       ∧ (autoCommitAndPush env choices c0 f0).commits = c0
       ∧ (autoCommitAndPush env choices c0 f0).filesCommitted = f0) := by
  have hmain := autoCommitAndPush_main env choices c0 f0 st cf a hst hst2 hcf hcf2 ha
  constructor
  · intro hu
    obtain ⟨tail, htail, htail2⟩ := afterStaging_cmds_confirmed env choices c0 f0 "" hu
    have hesc : escapeQuotes (if ("" : String) = "" then "chore: update" else "") =
        "chore: update" := by decide
    rw [hesc] at htail
    constructor
    · rw [hmain]
      show GitCmd.commit "chore: update" ∈
        [GitCmd.statusPorcelain, GitCmd.conflictNames, GitCmd.addAll]
          ++ (afterStaging env choices c0 f0).cmds
      rw [htail]
      simp
    · intro m hm
      rw [hmain] at hm
      have hm2 : GitCmd.commit m ∈
          ([GitCmd.statusPorcelain, GitCmd.conflictNames, GitCmd.addAll] : List GitCmd)
            ++ (afterStaging env choices c0 f0).cmds := hm
      rw [htail] at hm2
      simp only [List.append_assoc, List.mem_append, List.mem_cons, List.mem_singleton] at hm2
      rcases hm2 with h1 | h1 | h1
      · simp at h1
      · have h2 := generateCommitMessage_cmds env choices _ h1
        have h3 : isDraftRead (GitCmd.commit m) = false := rfl
        rw [h3] at h2
        exact absurd h2 (by simp)
      · rcases h1 with h1 | h1
        · rcases h1 with h1 | h1
          · exact (GitCmd.commit.injEq m "chore: update" ▸ h1 : m = "chore: update")
          · simp at h1
        · rcases htail2 _ h1 with h2 | h2 <;> simp at h2
  · intro hu
    have hmain2 := hmain
    rw [afterStaging_canceled env choices c0 f0 hu] at hmain2
    refine ⟨?_, ?_, ?_, ?_⟩
    · intro m hm
      rw [hmain2] at hm
      have hm2 : GitCmd.commit m ∈
          ([GitCmd.statusPorcelain, GitCmd.conflictNames, GitCmd.addAll] : List GitCmd)
            ++ (generateCommitMessage env choices).1 := hm
      rcases List.mem_append.mp hm2 with h1 | h1
      · simp at h1
      · have h2 := generateCommitMessage_cmds env choices _ h1
        have h3 : isDraftRead (GitCmd.commit m) = false := rfl
        rw [h3] at h2
        exact absurd h2 (by simp)
    · rw [hmain2]
    · rw [hmain2]
    · rw [hmain2]

/-- Concrete environment of a cycle cancelled at the confirmation
prompt with AI messages disabled. -/
def envCancel : GitEnv :=
  ⟨execHappy, none, true, false, none, none⟩

/-- Witness for the confirmation theorem on a concrete cancelled
cycle. -/
theorem confirmation_semantics_witness :
    (envCancel.userConfirm = some "" →
       GitCmd.commit "chore: update" ∈ (autoCommitAndPush envCancel [] 4 9).cmds
       ∧ ∀ m, GitCmd.commit m ∈ (autoCommitAndPush envCancel [] 4 9).cmds →
           m = "chore: update")
    ∧ (envCancel.userConfirm = none →
       (∀ m, GitCmd.commit m ∉ (autoCommitAndPush envCancel [] 4 9).cmds)
       ∧ (autoCommitAndPush envCancel [] 4 9).msgs = [.info "Commit canceled."]
       ∧ (autoCommitAndPush envCancel [] 4 9).commits = 4
       ∧ (autoCommitAndPush envCancel [] 4 9).filesCommitted = 9) :=
  confirmation_semantics envCancel [] 4 9 " M a.ts\n" "" ""
    rfl (by decide) rfl (by decide) rfl

/-- C9: in the AI-enabled configuration, when the probe passes and the
user cancels at the confirmation prompt, the stage-all command has
already been issued and is the only state-mutating git command of the
cycle — the pending changes stay staged, no commit happens, and the
session counters are unchanged. -/
theorem cancel_keeps_staging (env : GitEnv) (choices : List SetupChoice) (c0 f0 : Nat)
    (st cf a : String)
    (hAI : env.useAI = true)
    (hst : env.exec .statusPorcelain = some st) (hst2 : trimStr st ≠ "")
    (hcf : env.exec .conflictNames = some cf) (hcf2 : trimStr cf = "")
    (ha : env.exec .addAll = some a)
    (hu : env.userConfirm = none) :
    GitCmd.addAll ∈ (autoCommitAndPush env choices c0 f0).cmds
    ∧ (∀ c ∈ (autoCommitAndPush env choices c0 f0).cmds, mutating c = true → c = GitCmd.addAll)
    ∧ (autoCommitAndPush env choices c0 f0).commits = c0
    ∧ (autoCommitAndPush env choices c0 f0).filesCommitted = f0 := by
  have hmain := autoCommitAndPush_main env choices c0 f0 st cf a hst hst2 hcf hcf2 ha
  rw [afterStaging_canceled env choices c0 f0 hu] at hmain
  refine ⟨?_, ?_, ?_, ?_⟩
  · rw [hmain]
    show GitCmd.addAll ∈
      [GitCmd.statusPorcelain, GitCmd.conflictNames, GitCmd.addAll]
        ++ (generateCommitMessage env choices).1
    simp
  · intro c hc hmut
    rw [hmain] at hc
    have hc2 : c ∈
        ([GitCmd.statusPorcelain, GitCmd.conflictNames, GitCmd.addAll] : List GitCmd)
          ++ (generateCommitMessage env choices).1 := hc
    rcases List.mem_append.mp hc2 with h1 | h1
    · simp at h1
      rcases h1 with rfl | rfl | rfl
      · exact absurd hmut (by decide)
      · exact absurd hmut (by decide)
      · rfl
    · have h2 := generateCommitMessage_cmds env choices c h1
      rw [draftRead_not_mutating c h2] at hmut
      exact absurd hmut (by simp)
  · rw [hmain]
  · rw [hmain]

/-- Concrete environment of an AI-enabled cycle (no key stored, setup
prompt dismissed) cancelled at the confirmation prompt. -/
def envCancelAI : GitEnv :=
  ⟨execHappy, none, true, true, none, none⟩

/-- Witness for the cancellation-keeps-staging theorem on a concrete
AI-enabled cancelled cycle. -/
theorem cancel_keeps_staging_witness :
    GitCmd.addAll ∈ (autoCommitAndPush envCancelAI [] 1 2).cmds
    ∧ (∀ c ∈ (autoCommitAndPush envCancelAI [] 1 2).cmds, mutating c = true → c = GitCmd.addAll)
    ∧ (autoCommitAndPush envCancelAI [] 1 2).commits = 1
    ∧ (autoCommitAndPush envCancelAI [] 1 2).filesCommitted = 2 :=
  cancel_keeps_staging envCancelAI [] 1 2 " M a.ts\n" "" ""
    rfl rfl (by decide) rfl (by decide) rfl rfl

theorem reportErr_push_length : (reportErr GitCmd.push).length = 39 := by decide

theorem reportErr_commit_length (m : String) :
    (reportErr (GitCmd.commit m)).length = 47 + m.length := by
  have h : reportErr (GitCmd.commit m) =
      "Commit failed: " ++ ("Command failed: " ++ ("git commit -m \"" ++ m ++ "\"")) := rfl
  rw [h, strLength_append, strLength_append, strLength_append, strLength_append]
  have h1 : ("Commit failed: " : String).length = 15 := by decide
  have h2 : ("Command failed: " : String).length = 16 := by decide
  have h3 : ("git commit -m \"" : String).length = 15 := by decide
  have h4 : ("\"" : String).length = 1 := by decide
  rw [h1, h2, h3, h4]
  omega

/-- C6: when the probe, staging and commit all succeed but the push
subprocess fails, the cycle reports the push failure (an error naming
the push command line, which no commit-failure report ever equals), the
commit command remains in the issued history with nothing after the
failed push (no rollback command exists in the engine), and the
counters are not advanced by the failed cycle. -/
theorem push_failure_distinct (env : GitEnv) (choices : List SetupChoice) (c0 f0 : Nat)
    (st cf a um co : String)
    (hst : env.exec .statusPorcelain = some st) (hst2 : trimStr st ≠ "")
    (hcf : env.exec .conflictNames = some cf) (hcf2 : trimStr cf = "")
    (ha : env.exec .addAll = some a)
    (hu : env.userConfirm = some um)
    (hcommit : env.exec (.commit (escapeQuotes (if um = "" then "chore: update" else um)))
        = some co)
    (hp : env.autoPush = true)
    (hpush : env.exec .push = none) :
    (autoCommitAndPush env choices c0 f0).msgs = [.error (reportErr .push)]
    ∧ (autoCommitAndPush env choices c0 f0).cmds =
        [.statusPorcelain, .conflictNames, .addAll]
          ++ (generateCommitMessage env choices).1
          ++ [.commit (escapeQuotes (if um = "" then "chore: update" else um)), .push]
    ∧ (autoCommitAndPush env choices c0 f0).commits = c0
    ∧ ∀ m, reportErr GitCmd.push ≠ reportErr (GitCmd.commit m) := by
  have hmain := autoCommitAndPush_main env choices c0 f0 st cf a hst hst2 hcf hcf2 ha
  have hafter : afterStaging env choices c0 f0 =
      ⟨(generateCommitMessage env choices).1
         ++ [.commit (escapeQuotes (if um = "" then "chore: update" else um)), .push],
       [.error (reportErr .push)], c0, f0⟩ := by
    simp only [afterStaging, hu, hcommit]
    rw [if_pos hp]
    simp only [hpush]
  rw [hafter] at hmain
  refine ⟨?_, ?_, ?_, ?_⟩
  · rw [hmain]
  · rw [hmain]
    simp [List.append_assoc]
  · rw [hmain]
  · intro m heq
    have hl := congrArg String.length heq
    rw [reportErr_push_length, reportErr_commit_length] at hl
    omega

/-- Concrete environment where everything succeeds except the push. -/
def execPushFail : GitCmd → Option String
  | .statusPorcelain => some " M a.ts\n"
  | .conflictNames => some ""
  | .addAll => some ""
  | .diffCached => some ""
  | .diffCachedNames => some "a.ts\n"
  | .commit _ => some ""
  | .push => none
  | .diffPrevNames => some "a.ts\n"

/-- Environment record for the failing-push scenario. -/
def envPushFail : GitEnv :=
  ⟨execPushFail, some "fix: guard", true, false, none, none⟩

/-- Witness for the push-failure theorem on a concrete failing-push
cycle. -/
theorem push_failure_distinct_witness :
    (autoCommitAndPush envPushFail [] 3 6).msgs = [.error (reportErr .push)]
    ∧ (autoCommitAndPush envPushFail [] 3 6).cmds =
        [.statusPorcelain, .conflictNames, .addAll]
          ++ (generateCommitMessage envPushFail []).1
          ++ [.commit (escapeQuotes (if ("fix: guard" : String) = ""
                then "chore: update" else "fix: guard")), .push]
    ∧ (autoCommitAndPush envPushFail [] 3 6).commits = 3
    ∧ ∀ m, reportErr GitCmd.push ≠ reportErr (GitCmd.commit m) :=
  push_failure_distinct envPushFail [] 3 6 " M a.ts\n" "" "" "fix: guard" ""
    rfl (by decide) rfl (by decide) rfl rfl (by decide) rfl rfl

/-- C7 counterexample: with the suppression window active (expiry 100,
current time 50), the manual commit-now command still starts and
completes a full orchestration cycle, commit and push included — the
manual trigger is not gated by the pause window, only the
save-then-switch trigger is. -/
theorem manual_trigger_ignores_pause :
    suppressedB (some 100) 50 = true
    ∧ manualCommit ⟨some "a.ts", some 100⟩ 50 (some "ws") true envHappy [] 0 0 =
        some ⟨[.statusPorcelain, .conflictNames, .addAll, .diffCachedNames,
               .commit "chore: done", .push, .diffPrevNames],
              [.info "Committed & pushed! Today: 1 commits, 1 files"], 1, 1⟩ := by
  constructor
  · decide
  · decide

/-- C7 amended: while the suppression window is active the
save-then-switch trigger is suppressed — handleFileSwitch starts no
cycle and leaves the trigger state untouched — but the manual
commit-now command is not gated by the window: given a workspace folder
that is a git repository it always runs the orchestration cycle. -/
theorem pause_suppresses_switch_trigger (st : TriggerState) (now : Nat) (sw : SwitchEnv)
    (env : GitEnv) (choices : List SetupChoice) (c0 f0 : Nat)
    (hsup : suppressedB st.pausedUntil now = true) :
    (handleFileSwitch st now sw env choices c0 f0).1 = none
    ∧ (handleFileSwitch st now sw env choices c0 f0).2 = st
    ∧ ∀ w, manualCommit st now (some w) true env choices c0 f0 =
        some (autoCommitAndPush env choices c0 f0) := by
  refine ⟨?_, ?_, fun w => rfl⟩ <;> {
    simp only [handleFileSwitch]
    cases st.lastSavedFile with
    | none => rfl
    | some saved =>
      simp only []
      rw [if_pos hsup]
  }

/-- Witness for the amended pause theorem at a concrete suppressed
state. -/
theorem pause_suppresses_switch_trigger_witness :
    (handleFileSwitch ⟨some "a.ts", some 100⟩ 50 ⟨"b.ts", some "ws", true⟩
        envHappy [] 0 0).1 = none
    ∧ (handleFileSwitch ⟨some "a.ts", some 100⟩ 50 ⟨"b.ts", some "ws", true⟩
        envHappy [] 0 0).2 = ⟨some "a.ts", some 100⟩
    ∧ ∀ w, manualCommit ⟨some "a.ts", some 100⟩ 50 (some w) true envHappy [] 0 0 =
        some (autoCommitAndPush envHappy [] 0 0) :=
  pause_suppresses_switch_trigger ⟨some "a.ts", some 100⟩ 50 ⟨"b.ts", some "ws", true⟩
    envHappy [] 0 0 (by decide)

/-- C10: the pending save marker is cleared exactly when the
orchestration cycle function is actually invoked; every earlier
rejection of the trigger (no pending save, active suppression window,
switch to the same file, no workspace folder, not a git repository)
leaves the whole trigger state unchanged, and even a run leaves the
pause window untouched. -/
theorem marker_cleared_only_on_cycle (st : TriggerState) (now : Nat) (sw : SwitchEnv)
    (env : GitEnv) (choices : List SetupChoice) (c0 f0 : Nat) :
    ((handleFileSwitch st now sw env choices c0 f0).1 = none →
       (handleFileSwitch st now sw env choices c0 f0).2 = st)
    ∧ ((handleFileSwitch st now sw env choices c0 f0).1 ≠ none →
       (handleFileSwitch st now sw env choices c0 f0).2.lastSavedFile = none
       ∧ (handleFileSwitch st now sw env choices c0 f0).2.pausedUntil = st.pausedUntil
       ∧ (handleFileSwitch st now sw env choices c0 f0).1 =
           some (autoCommitAndPush env choices c0 f0)) := by
  simp only [handleFileSwitch]
  cases st.lastSavedFile with
  | none => exact ⟨fun _ => rfl, fun h => absurd rfl h⟩
  | some saved =>
    simp only []
    by_cases h1 : suppressedB st.pausedUntil now = true
    · rw [if_pos h1]
      exact ⟨fun _ => rfl, fun h => absurd rfl h⟩
    · rw [if_neg h1]
      by_cases h2 : sw.editorFile = saved
      · rw [if_pos h2]
        exact ⟨fun _ => rfl, fun h => absurd rfl h⟩
      · rw [if_neg h2]
        cases sw.workspaceFolder with
        | none => exact ⟨fun _ => rfl, fun h => absurd rfl h⟩
        | some w =>
          by_cases h3 : sw.isGitRepo = true
          · rw [if_pos h3]
            exact ⟨fun h => absurd h (by simp), fun _ => ⟨rfl, rfl, rfl⟩⟩
          · rw [if_neg h3]
            exact ⟨fun _ => rfl, fun h => absurd rfl h⟩

/-- Witness for the marker theorem: a same-file switch is rejected and
leaves the state unchanged. -/
theorem marker_cleared_only_on_cycle_witness :
    ((handleFileSwitch ⟨some "a.ts", none⟩ 50 ⟨"a.ts", some "ws", true⟩
        envHappy [] 0 0).1 = none →
       (handleFileSwitch ⟨some "a.ts", none⟩ 50 ⟨"a.ts", some "ws", true⟩
        envHappy [] 0 0).2 = ⟨some "a.ts", none⟩)
    ∧ ((handleFileSwitch ⟨some "a.ts", none⟩ 50 ⟨"a.ts", some "ws", true⟩
        envHappy [] 0 0).1 ≠ none →
       (handleFileSwitch ⟨some "a.ts", none⟩ 50 ⟨"a.ts", some "ws", true⟩
        envHappy [] 0 0).2.lastSavedFile = none
       ∧ (handleFileSwitch ⟨some "a.ts", none⟩ 50 ⟨"a.ts", some "ws", true⟩
        envHappy [] 0 0).2.pausedUntil = none
       ∧ (handleFileSwitch ⟨some "a.ts", none⟩ 50 ⟨"a.ts", some "ws", true⟩
        envHappy [] 0 0).1 = some (autoCommitAndPush envHappy [] 0 0)) :=
  marker_cleared_only_on_cycle ⟨some "a.ts", none⟩ 50 ⟨"a.ts", some "ws", true⟩
    envHappy [] 0 0
